import Mathlib

/-!
Shallow embedding of the Connect 4 move-decision engine from `Connect4.py`:
board representation, legality checks, win detection, the positional
heuristic (`score_position` / `evaluate_window`), depth-bounded minimax with
alpha-beta pruning (`minimax`), and the AI controller (`get_ai_move` with the
`get_center_column` fallback).  Python's `random.choice` is modelled by an
explicit oracle `pick : List Nat → Nat`; theorems that need it assume the
oracle returns a member of a non-empty list.  Python's `math.inf` / `-math.inf`
are modelled by the extended-integer type `XInt`.
-/

namespace C4

/-- Game constants, as in the Python source. -/
def ROWS : Nat := 6

/-- Number of columns. -/
def COLS : Nat := 7

/-- Cell value for an empty cell. -/
def EMPTY : Nat := 0

/-- Cell value for the human player's piece. -/
def PLAYER_PIECE : Nat := 1

/-- Cell value for the AI's piece. -/
def AI_PIECE : Nat := 2

/-- A board is a list of rows, each a list of cells; row 0 is the top. -/
abbrev Board := List (List Nat)

/-- Reading `board[r][c]`; out-of-range reads yield `EMPTY` (the Python code
only reads in range on well-formed boards). -/
def cell (b : Board) (r c : Nat) : Nat := (b.getD r []).getD c EMPTY

/-- Well-formed board: 6 rows of 7 cells. -/
def WF (b : Board) : Prop := b.length = ROWS ∧ ∀ row ∈ b, row.length = COLS

/-- Python `is_valid_location_board`: `0 <= col < COLS and board[0][col] == EMPTY`. -/
def is_valid_location_board (b : Board) (col : Nat) : Bool :=
  col < COLS && cell b 0 col == EMPTY

/-- The list comprehension `[col for col in range(COLS) if is_valid_location_board(board, col)]`,
used both in `minimax` and (as `valid_cols`) in `get_center_column`; it is the
spec's `legal_columns`. -/
def valid_locations (b : Board) : List Nat :=
  (List.range COLS).filter (fun col => is_valid_location_board b col)

/-- Python `get_next_open_row_board`: scan rows `ROWS-1, ..., 0` for the first
empty cell in the column. -/
def get_next_open_row_board (b : Board) (col : Nat) : Option Nat :=
  ((List.range ROWS).reverse).find? (fun row => cell b row col == EMPTY)

/-- Writing `board[row][col] = piece` on a copied board. -/
def place (b : Board) (row col piece : Nat) : Board :=
  b.set row ((b.getD row []).set col piece)

/-- The `b_copy = copy; row = get_next_open_row_board(...); b_copy[row][col] = piece`
sequence from `minimax` and the greedy checks of `get_ai_move`.  When the
column has no open row Python would raise; that branch is unreachable for
columns drawn from `valid_locations` (claim C10), and the model returns the
board unchanged there. -/
def simulate_drop (b : Board) (col piece : Nat) : Board :=
  match get_next_open_row_board b col with
  | some row => place b row col piece
  | none => b

/-- Python `winning_move`: scan horizontals, verticals, ascending diagonals,
and descending diagonals (rows `3..5` in the source, written `r0 + 3` here)
for four consecutive cells equal to `piece`. -/
def winning_move (b : Board) (p : Nat) : Bool :=
  ((List.range (COLS - 3)).any fun c => (List.range ROWS).any fun r =>
      (List.range 4).all fun i => cell b r (c + i) == p) ||
  ((List.range COLS).any fun c => (List.range (ROWS - 3)).any fun r =>
      (List.range 4).all fun i => cell b (r + i) c == p) ||
  ((List.range (COLS - 3)).any fun c => (List.range (ROWS - 3)).any fun r =>
      (List.range 4).all fun i => cell b (r + i) (c + i) == p) ||
  ((List.range (COLS - 3)).any fun c => (List.range (ROWS - 3)).any fun r0 =>
      (List.range 4).all fun i => cell b (r0 + 3 - i) (c + i) == p)

/-- Python `get_winning_positions`: same four scans, collecting the four
coordinates of every matching window in scan order. -/
def get_winning_positions (b : Board) (p : Nat) : List (Nat × Nat) :=
  (((List.range (COLS - 3)).flatMap fun c => (List.range ROWS).flatMap fun r =>
      if (List.range 4).all (fun i => cell b r (c + i) == p)
      then (List.range 4).map (fun i => (r, c + i)) else []) ++
   ((List.range COLS).flatMap fun c => (List.range (ROWS - 3)).flatMap fun r =>
      if (List.range 4).all (fun i => cell b (r + i) c == p)
      then (List.range 4).map (fun i => (r + i, c)) else []) ++
   ((List.range (COLS - 3)).flatMap fun c => (List.range (ROWS - 3)).flatMap fun r =>
      if (List.range 4).all (fun i => cell b (r + i) (c + i) == p)
      then (List.range 4).map (fun i => (r + i, c + i)) else []) ++
   ((List.range (COLS - 3)).flatMap fun c => (List.range (ROWS - 3)).flatMap fun r0 =>
      if (List.range 4).all (fun i => cell b (r0 + 3 - i) (c + i) == p)
      then (List.range 4).map (fun i => (r0 + 3 - i, c + i)) else []))

/-- Python `is_terminal_node`. -/
def is_terminal_node (b : Board) : Bool :=
  winning_move b PLAYER_PIECE || winning_move b AI_PIECE ||
    (valid_locations b).length == 0

/-- Python `evaluate_window`: score one 4-cell window for `piece`; the `-80`
opponent-threat penalty is added by a separate `if`, not an `elif`. -/
def evaluate_window (w : List Nat) (p : Nat) : Int :=
  let opp := if p = AI_PIECE then PLAYER_PIECE else AI_PIECE
  (if w.count p = 4 then (100 : Int)
   else if w.count p = 3 ∧ w.count EMPTY = 1 then 10
   else if w.count p = 2 ∧ w.count EMPTY = 2 then 2
   else 0) +
  (if w.count opp = 3 ∧ w.count EMPTY = 1 then (-80 : Int) else 0)

/-- Python `score_position`: center-column bonus plus the window scores of all
four orientations.  Horizontal windows are the slices `row_array[c:c+4]`;
vertical windows are slices of the column comprehension; diagonal windows are
4-element comprehensions. -/
def score_position (b : Board) (p : Nat) : Int :=
  let center_count := (((List.range ROWS).map fun r => cell b r (COLS / 2)).count p : Int)
  center_count * 3 +
  (((List.range ROWS).map fun r =>
      (((List.range (COLS - 3)).map fun c =>
          evaluate_window (((b.getD r []).drop c).take 4) p).sum)).sum) +
  (((List.range COLS).map fun c =>
      (((List.range (ROWS - 3)).map fun r =>
          evaluate_window (((((List.range ROWS).map fun i => cell b i c).drop r).take 4)) p).sum)).sum) +
  (((List.range (ROWS - 3)).map fun r =>
      (((List.range (COLS - 3)).map fun c =>
          evaluate_window ((List.range 4).map fun i => cell b (r + i) (c + i)) p).sum)).sum) +
  (((List.range (ROWS - 3)).map fun r =>
      (((List.range (COLS - 3)).map fun c =>
          evaluate_window ((List.range 4).map fun i => cell b (r + 3 - i) (c + i)) p).sum)).sum)

/-- Extended integers modelling Python floats restricted to the values the
engine uses: `-math.inf`, finite integer scores, `math.inf`. -/
inductive XInt where
  | negInf : XInt
  | val : Int → XInt
  | posInf : XInt
deriving DecidableEq

/-- Python `<` on the values above (total, no NaN). -/
def XInt.lt : XInt → XInt → Bool
  | .negInf, .negInf => false
  | .negInf, _ => true
  | .val _, .negInf => false
  | .val a, .val b => a < b
  | .val _, .posInf => true
  | .posInf, _ => false

/-- Python `<=`: `a <= b` iff not `b < a`. -/
def XInt.le (a b : XInt) : Bool := !(XInt.lt b a)

/-- Python `max(a, b)` (returns `a` on ties). -/
def XInt.max (a b : XInt) : XInt := if XInt.le b a then a else b

/-- Python `min(a, b)` (returns `a` on ties). -/
def XInt.min (a b : XInt) : XInt := if XInt.le a b then a else b

/-- The terminal half of minimax's base case: AI four-in-a-row scores
`100000000000000`, the player's scores `-10000000000000`, a full drawn board
scores `0`. -/
def terminal_score (b : Board) : Option Nat × XInt :=
  if winning_move b AI_PIECE then (none, XInt.val 100000000000000)
  else if winning_move b PLAYER_PIECE then (none, XInt.val (-10000000000000))
  else (none, XInt.val 0)

/-- The seed `column = random.choice(valid_locations) if valid_locations else None`. -/
def seed_column (pick : List Nat → Nat) (valid : List Nat) : Option Nat :=
  if valid.isEmpty then none else some (pick valid)

/-- The maximizing `for col in valid_locations` loop of `minimax`:
`recScore` is the recursive call at one less depth; the loop carries
`value`, `column` and `alpha`, updates on strict improvement only, and
breaks when `alpha >= beta`.  Returns `(column, value)`. -/
def maxLoop (recScore : Board → XInt → XInt → XInt) (b : Board) :
    List Nat → XInt → Option Nat → XInt → XInt → Option Nat × XInt
  | [], value, column, _alpha, _beta => (column, value)
  | col :: rest, value, column, alpha, beta =>
      let new_score := recScore (simulate_drop b col AI_PIECE) alpha beta
      let value' := if XInt.lt value new_score then new_score else value
      let column' := if XInt.lt value new_score then some col else column
      let alpha' := XInt.max alpha value'
      if XInt.le beta alpha' then (column', value')
      else maxLoop recScore b rest value' column' alpha' beta

/-- The minimizing loop of `minimax`, mirroring `maxLoop` with the player's
piece, strict decrease, and `beta`. -/
def minLoop (recScore : Board → XInt → XInt → XInt) (b : Board) :
    List Nat → XInt → Option Nat → XInt → XInt → Option Nat × XInt
  | [], value, column, _alpha, _beta => (column, value)
  | col :: rest, value, column, alpha, beta =>
      let new_score := recScore (simulate_drop b col PLAYER_PIECE) alpha beta
      let value' := if XInt.lt new_score value then new_score else value
      let column' := if XInt.lt new_score value then some col else column
      let beta' := XInt.min beta value'
      if XInt.le beta' alpha then (column', value')
      else minLoop recScore b rest value' column' alpha beta'

/-- Python `minimax(board, depth, alpha, beta, maximizing_player)`.  The
`depth == 0 or is_terminal` base case is split over the two depth patterns;
the recursive case runs the maximizing or minimizing loop over
`valid_locations`, seeded with `value = ∓inf` and the random column. -/
def minimax (pick : List Nat → Nat) : Nat → Board → XInt → XInt → Bool → Option Nat × XInt
  | 0, b, _alpha, _beta, _maximizing =>
      if is_terminal_node b then terminal_score b
      else (none, XInt.val (score_position b AI_PIECE))
  | d + 1, b, alpha, beta, maximizing =>
      if is_terminal_node b then terminal_score b
      else
        let valid := valid_locations b
        if maximizing then
          maxLoop (fun b2 a2 b3 => (minimax pick d b2 a2 b3 false).2) b valid
            XInt.negInf (seed_column pick valid) alpha beta
        else
          minLoop (fun b2 a2 b3 => (minimax pick d b2 a2 b3 true).2) b valid
            XInt.posInf (seed_column pick valid) alpha beta

/-- Python `get_center_column`: the center if legal, else the first legal
column at offsets `+1, -1, +2, -2, +3` from the center, else a random legal
column, else `0`. -/
def get_center_column (pick : List Nat → Nat) (b : Board) : Nat :=
  let center_col := COLS / 2
  if is_valid_location_board b center_col then center_col
  else
    match ([1, -1, 2, -2, 3] : List Int).find? (fun off =>
        decide (0 ≤ (center_col : Int) + off) &&
        decide ((center_col : Int) + off < (COLS : Int)) &&
        is_valid_location_board b ((center_col : Int) + off).toNat) with
    | some off => ((center_col : Int) + off).toNat
    | none =>
        let valid_cols := (List.range COLS).filter (fun col => is_valid_location_board b col)
        if valid_cols.isEmpty then 0 else pick valid_cols

/-- Python `get_ai_move`: greedy immediate win, then greedy block, then
`minimax(board, ai_depth, -inf, inf, True)`, then the center-column fallback
when minimax yields no column. -/
def get_ai_move (pick : List Nat → Nat) (b : Board) (ai_depth : Nat) : Option Nat :=
  match (List.range COLS).find? (fun col =>
      is_valid_location_board b col &&
      match get_next_open_row_board b col with
      | some row => winning_move (place b row col AI_PIECE) AI_PIECE
      | none => false) with
  | some col => some col
  | none =>
    match (List.range COLS).find? (fun col =>
        is_valid_location_board b col &&
        match get_next_open_row_board b col with
        | some row => winning_move (place b row col PLAYER_PIECE) PLAYER_PIECE
        | none => false) with
    | some col => some col
    | none =>
      match (minimax pick ai_depth b XInt.negInf XInt.posInf true).1 with
      | some col => some col
      | none => some (get_center_column pick b)

/-- Reference window score, following the spec's case list: the five cases
are mutually exclusive, with `0 otherwise`. -/
def spec_window (w : List Nat) (p : Nat) : Int :=
  let opp := if p = AI_PIECE then PLAYER_PIECE else AI_PIECE
  if w.count p = 4 then 100
  else if w.count p = 3 ∧ w.count EMPTY = 1 then 10
  else if w.count p = 2 ∧ w.count EMPTY = 2 then 2
  else if w.count opp = 3 ∧ w.count EMPTY = 1 then -80
  else 0

/-- Reference evaluator, following the spec: `+3` per own piece in the center
column, plus the window score of every 4-cell window in all four orientations
at every position. -/
def spec_evaluate (b : Board) (p : Nat) : Int :=
  3 * (((List.range ROWS).map fun r => cell b r (COLS / 2)).count p : Int) +
  (((List.range ROWS).map fun r =>
      (((List.range (COLS - 3)).map fun c =>
          spec_window [cell b r c, cell b r (c + 1), cell b r (c + 2), cell b r (c + 3)] p).sum)).sum) +
  (((List.range COLS).map fun c =>
      (((List.range (ROWS - 3)).map fun r =>
          spec_window [cell b r c, cell b (r + 1) c, cell b (r + 2) c, cell b (r + 3) c] p).sum)).sum) +
  (((List.range (ROWS - 3)).map fun r =>
      (((List.range (COLS - 3)).map fun c =>
          spec_window [cell b r c, cell b (r + 1) (c + 1), cell b (r + 2) (c + 2),
            cell b (r + 3) (c + 3)] p).sum)).sum) +
  (((List.range (ROWS - 3)).map fun r =>
      (((List.range (COLS - 3)).map fun c =>
          spec_window [cell b (r + 3) c, cell b (r + 2) (c + 1), cell b (r + 1) (c + 2),
            cell b r (c + 3)] p).sum)).sum)

/-- A concrete deterministic oracle for `random.choice`: the head of the list. -/
def pick0 : List Nat → Nat := fun l => l.headD 0

/-- A concrete recursive-score function used to exercise the search loops. -/
def recScore0 : Board → XInt → XInt → XInt := fun _ _ _ => XInt.val 0

/-- An all-empty row. -/
def empty_row : List Nat := [0, 0, 0, 0, 0, 0, 0]

/-- Board with the player's pieces at `(5,0)`, `(5,1)`, `(5,2)` only. -/
def block3_board : Board :=
  [empty_row, empty_row, empty_row, empty_row, empty_row, [1, 1, 1, 0, 0, 0, 0]]

/-- The previous board after the player also drops in column 3. -/
def block4_board : Board := simulate_drop block3_board 3 PLAYER_PIECE

/-- Empty board with a single player piece in the center column. -/
def center_board : Board :=
  [empty_row, empty_row, empty_row, empty_row, empty_row, [0, 0, 0, 1, 0, 0, 0]]

/-- A fully occupied board with no four-in-a-row. -/
def full_board : Board :=
  [[1, 2, 1, 2, 1, 2, 1], [1, 2, 1, 2, 1, 2, 1], [2, 1, 2, 1, 2, 1, 2],
   [2, 1, 2, 1, 2, 1, 2], [1, 2, 1, 2, 1, 2, 1], [1, 2, 1, 2, 1, 2, 1]]

/-- Board on which the AI already has four-in-a-row. -/
def ai_win_board : Board :=
  [empty_row, empty_row, empty_row, empty_row, empty_row, [2, 2, 2, 2, 0, 0, 0]]

/-- Board on which the player already has four-in-a-row. -/
def player_win_board : Board :=
  [empty_row, empty_row, empty_row, empty_row, empty_row, [1, 1, 1, 1, 0, 0, 0]]

/-- Board whose only legal column is column 6. -/
def one_col_board : Board :=
  [[1, 2, 1, 2, 1, 2, 0], [1, 2, 1, 2, 1, 2, 0], [2, 1, 2, 1, 2, 1, 2],
   [2, 1, 2, 1, 2, 1, 2], [1, 2, 1, 2, 1, 2, 1], [1, 2, 1, 2, 1, 2, 1]]


/-- Validity of a column implies it is below `COLS`. -/
lemma valid_lt {b : Board} {c : Nat} (h : is_valid_location_board b c = true) : c < COLS := by
  simp only [is_valid_location_board, Bool.and_eq_true, decide_eq_true_eq] at h
  exact h.1

/-- Membership in `valid_locations` is exactly validity of the column. -/
lemma mem_valid_locations {b : Board} {c : Nat} :
    c ∈ valid_locations b ↔ is_valid_location_board b c = true := by
  constructor
  · intro h; exact (List.mem_filter.mp h).2
  · intro h
    exact List.mem_filter.mpr ⟨List.mem_range.mpr (valid_lt h), h⟩

/-- The terminal base case never carries a column. -/
lemma terminal_score_fst (b : Board) : (terminal_score b).1 = none := by
  unfold terminal_score; split_ifs <;> rfl

/-- A column reported by the maximizing loop is the initial column or one of
the scanned columns. -/
lemma maxLoop_col_mem (recScore : Board → XInt → XInt → XInt) (b : Board) :
    ∀ (cols : List Nat) (value : XInt) (column : Option Nat) (alpha beta : XInt) (c : Nat),
    (maxLoop recScore b cols value column alpha beta).1 = some c →
    column = some c ∨ c ∈ cols := by
  intro cols
  induction cols with
  | nil =>
      intro value column alpha beta c h
      exact Or.inl (by simpa [maxLoop] using h)
  | cons col rest ih =>
      intro value column alpha beta c h
      simp only [maxLoop] at h
      split at h
      · split at h
        · have hc : col = c := by simpa using h
          exact Or.inr (hc ▸ List.mem_cons_self col rest)
        · rcases ih _ _ _ _ _ h with hcol | hmem
          · have : col = c := by simpa using hcol
            exact Or.inr (this ▸ List.mem_cons_self col rest)
          · exact Or.inr (List.mem_cons_of_mem col hmem)
      · split at h
        · simp only at h
          exact Or.inl h
        · rcases ih _ _ _ _ _ h with hcol | hmem
          · exact Or.inl hcol
          · exact Or.inr (List.mem_cons_of_mem col hmem)

/-- A column reported by the minimizing loop is the initial column or one of
the scanned columns. -/
lemma minLoop_col_mem (recScore : Board → XInt → XInt → XInt) (b : Board) :
    ∀ (cols : List Nat) (value : XInt) (column : Option Nat) (alpha beta : XInt) (c : Nat),
    (minLoop recScore b cols value column alpha beta).1 = some c →
    column = some c ∨ c ∈ cols := by
  intro cols
  induction cols with
  | nil =>
      intro value column alpha beta c h
      exact Or.inl (by simpa [minLoop] using h)
  | cons col rest ih =>
      intro value column alpha beta c h
      simp only [minLoop] at h
      split at h
      · split at h
        · have hc : col = c := by simpa using h
          exact Or.inr (hc ▸ List.mem_cons_self col rest)
        · rcases ih _ _ _ _ _ h with hcol | hmem
          · have : col = c := by simpa using hcol
            exact Or.inr (this ▸ List.mem_cons_self col rest)
          · exact Or.inr (List.mem_cons_of_mem col hmem)
      · split at h
        · simp only at h
          exact Or.inl h
        · rcases ih _ _ _ _ _ h with hcol | hmem
          · exact Or.inl hcol
          · exact Or.inr (List.mem_cons_of_mem col hmem)

/-- The random seed column, when present, is a member of the list. -/
lemma seed_column_mem {pick : List Nat → Nat} {valid : List Nat} {c : Nat}
    (hpick : ∀ l : List Nat, l ≠ [] → pick l ∈ l)
    (h : seed_column pick valid = some c) : c ∈ valid := by
  unfold seed_column at h
  split at h
  · exact absurd h (by simp)
  · next hne =>
      have : pick valid = c := by simpa using h
      exact this ▸ hpick valid (by simpa [List.isEmpty_iff] using hne)

/-- Any column reported by `minimax` is a legal column of the board searched. -/
lemma minimax_col_mem (pick : List Nat → Nat)
    (hpick : ∀ l : List Nat, l ≠ [] → pick l ∈ l) :
    ∀ (d : Nat) (b : Board) (alpha beta : XInt) (m : Bool) (c : Nat),
    (minimax pick d b alpha beta m).1 = some c → c ∈ valid_locations b := by
  intro d b alpha beta m c h
  cases d with
  | zero =>
      rw [minimax] at h
      split at h
      · rw [terminal_score_fst] at h; exact absurd h (by simp)
      · exact absurd h (by simp)
  | succ n =>
      rw [minimax] at h
      split at h
      · rw [terminal_score_fst] at h; exact absurd h (by simp)
      · simp only at h
        split at h
        · rcases maxLoop_col_mem _ _ _ _ _ _ _ _ h with hseed | hmem
          · exact seed_column_mem hpick hseed
          · exact hmem
        · rcases minLoop_col_mem _ _ _ _ _ _ _ _ h with hseed | hmem
          · exact seed_column_mem hpick hseed
          · exact hmem

/-- When no column is legal, every validity test is false. -/
lemma not_valid_of_nil {b : Board} (h : valid_locations b = []) :
    ∀ c : Nat, is_valid_location_board b c = false := by
  intro c
  by_contra hc
  have : is_valid_location_board b c = true := by
    revert hc; cases is_valid_location_board b c <;> simp
  have := mem_valid_locations.mpr this
  simp [h] at this

/-- On a board with no legal column the fallback returns `0`. -/
lemma gcc_of_nil (pick : List Nat → Nat) (b : Board) (h : valid_locations b = []) :
    get_center_column pick b = 0 := by
  have hv := not_valid_of_nil h
  rw [get_center_column]
  simp only [hv]
  rw [List.find?_eq_none.mpr ?_]
  · simp only [show ((List.range COLS).filter fun col => is_valid_location_board b col)
        = valid_locations b from rfl, h]
    rfl
  · intro off _
    simp [hv]

/-- A Boolean not equal to `true` is `false`. -/
lemma bool_not_true {x : Bool} (h : ¬ x = true) : x = false := by
  revert h; cases x <;> simp

/-- When the center is illegal, the fallback reduces to the probe chain over
columns `4, 2, 5, 1, 6` followed by the random draw over `valid_locations`. -/
lemma gcc_chain (pick : List Nat → Nat) (b : Board)
    (hc : is_valid_location_board b 3 = false) :
    get_center_column pick b =
      if is_valid_location_board b 4 then 4
      else if is_valid_location_board b 2 then 2
      else if is_valid_location_board b 5 then 5
      else if is_valid_location_board b 1 then 1
      else if is_valid_location_board b 6 then 6
      else if (valid_locations b).isEmpty then 0 else pick (valid_locations b) := by
  have hc' : is_valid_location_board b (COLS / 2) = false := hc
  rw [get_center_column]
  simp only [hc', Bool.false_eq_true, if_false]
  by_cases h4 : is_valid_location_board b 4 = true
  · rw [List.find?_cons_of_pos _ (by exact h4)]
    simp [h4]
    decide
  · have h4f : is_valid_location_board b 4 = false := bool_not_true h4
    rw [List.find?_cons_of_neg _ (by exact h4)]
    by_cases h2 : is_valid_location_board b 2 = true
    · rw [List.find?_cons_of_pos _ (by exact h2)]
      simp [h4f, h2]
      decide
    · have h2f : is_valid_location_board b 2 = false := bool_not_true h2
      rw [List.find?_cons_of_neg _ (by exact h2)]
      by_cases h5 : is_valid_location_board b 5 = true
      · rw [List.find?_cons_of_pos _ (by exact h5)]
        simp [h4f, h2f, h5]
        decide
      · have h5f : is_valid_location_board b 5 = false := bool_not_true h5
        rw [List.find?_cons_of_neg _ (by exact h5)]
        by_cases h1 : is_valid_location_board b 1 = true
        · rw [List.find?_cons_of_pos _ (by exact h1)]
          simp [h4f, h2f, h5f, h1]
          decide
        · have h1f : is_valid_location_board b 1 = false := bool_not_true h1
          rw [List.find?_cons_of_neg _ (by exact h1)]
          by_cases h6 : is_valid_location_board b 6 = true
          · rw [List.find?_cons_of_pos _ (by exact h6)]
            simp [h4f, h2f, h5f, h1f, h6]
            decide
          · have h6f : is_valid_location_board b 6 = false := bool_not_true h6
            rw [List.find?_cons_of_neg _ (by exact h6)]
            simp only [List.find?_nil, h4f, h2f, h5f, h1f, h6f, Bool.false_eq_true, if_false]
            rfl

/-- When columns 1 through 6 are all illegal, the legal columns are at most
column 0. -/
lemma valid_locations_all_invalid {b : Board}
    (h1 : is_valid_location_board b 1 = false) (h2 : is_valid_location_board b 2 = false)
    (h3 : is_valid_location_board b 3 = false) (h4 : is_valid_location_board b 4 = false)
    (h5 : is_valid_location_board b 5 = false) (h6 : is_valid_location_board b 6 = false) :
    valid_locations b = if is_valid_location_board b 0 then [0] else [] := by
  have : List.range COLS = [0, 1, 2, 3, 4, 5, 6] := by decide
  rw [valid_locations, this]
  by_cases h0 : is_valid_location_board b 0 = true
  · simp [List.filter, h0, h1, h2, h3, h4, h5, h6]
  · have h0f : is_valid_location_board b 0 = false := bool_not_true h0
    simp [List.filter, h0f, h1, h2, h3, h4, h5, h6]

/-- The fallback column is legal whenever any column is. -/
lemma gcc_mem (pick : List Nat → Nat) (hpick : ∀ l : List Nat, l ≠ [] → pick l ∈ l)
    (b : Board) (hne : valid_locations b ≠ []) :
    get_center_column pick b ∈ valid_locations b := by
  by_cases hc : is_valid_location_board b 3 = true
  · have : get_center_column pick b = 3 := by
      rw [get_center_column]
      simp only [show is_valid_location_board b (COLS / 2) = true from hc, if_true]
      decide
    rw [this]; exact mem_valid_locations.mpr hc
  · have hcf : is_valid_location_board b 3 = false := bool_not_true hc
    rw [gcc_chain pick b hcf]
    split_ifs with g4 g2 g5 g1 g6 gE
    · exact mem_valid_locations.mpr g4
    · exact mem_valid_locations.mpr g2
    · exact mem_valid_locations.mpr g5
    · exact mem_valid_locations.mpr g1
    · exact mem_valid_locations.mpr g6
    · exact absurd (List.isEmpty_iff.mp gE) hne
    · exact hpick _ hne

/-- When the center is illegal, the fallback column is a legal column at
minimal absolute offset from the center among all legal columns. -/
lemma gcc_nearest (pick : List Nat → Nat) (hpick : ∀ l : List Nat, l ≠ [] → pick l ∈ l)
    (b : Board) (hcf : is_valid_location_board b 3 = false)
    (hne : valid_locations b ≠ []) :
    get_center_column pick b ∈ valid_locations b ∧
    ∀ c ∈ valid_locations b,
      ((get_center_column pick b : Int) - 3).natAbs ≤ ((c : Int) - 3).natAbs := by
  rw [gcc_chain pick b hcf]
  split_ifs with g4 g2 g5 g1 g6 gE
  · refine ⟨mem_valid_locations.mpr g4, ?_⟩
    intro c hcv
    have hv := mem_valid_locations.mp hcv
    have hlt : c < 7 := valid_lt hv
    interval_cases c <;> first | decide | simp_all
  · refine ⟨mem_valid_locations.mpr g2, ?_⟩
    intro c hcv
    have hv := mem_valid_locations.mp hcv
    have hlt : c < 7 := valid_lt hv
    interval_cases c <;> first | decide | simp_all
  · refine ⟨mem_valid_locations.mpr g5, ?_⟩
    intro c hcv
    have hv := mem_valid_locations.mp hcv
    have hlt : c < 7 := valid_lt hv
    interval_cases c <;> first | decide | simp_all
  · refine ⟨mem_valid_locations.mpr g1, ?_⟩
    intro c hcv
    have hv := mem_valid_locations.mp hcv
    have hlt : c < 7 := valid_lt hv
    interval_cases c <;> first | decide | simp_all
  · refine ⟨mem_valid_locations.mpr g6, ?_⟩
    intro c hcv
    have hv := mem_valid_locations.mp hcv
    have hlt : c < 7 := valid_lt hv
    interval_cases c <;> first | decide | simp_all
  · exact absurd (List.isEmpty_iff.mp gE) hne
  · have hval : valid_locations b = [0] := by
      rw [valid_locations_all_invalid (bool_not_true g1) (bool_not_true g2) hcf
        (bool_not_true g4) (bool_not_true g5) (bool_not_true g6)]
      split_ifs with h0
      · rfl
      · exact absurd (by
          rw [valid_locations_all_invalid (bool_not_true g1) (bool_not_true g2) hcf
            (bool_not_true g4) (bool_not_true g5) (bool_not_true g6)]
          simp [bool_not_true h0]) hne
    have hp0 : pick (valid_locations b) = 0 := by
      have := hpick (valid_locations b) hne
      rw [hval] at this ⊢
      simpa using this
    rw [hp0]
    constructor
    · rw [hval]; simp
    · intro c hcv
      rw [hval] at hcv
      simp at hcv
      subst hcv
      decide



/-- A coordinate block of `get_winning_positions` is empty exactly when the
corresponding scan of `winning_move` fails. -/
lemma block_nil_iff (L1 L2 : List Nat) (cond : Nat → Nat → Bool)
    (coords : Nat → Nat → List (Nat × Nat)) (hco : ∀ c r, coords c r ≠ []) :
    ((L1.flatMap fun c => L2.flatMap fun r => if cond c r then coords c r else []) = [])
      ↔ (L1.any fun c => L2.any fun r => cond c r) = false := by
  simp only [List.flatMap_eq_nil_iff, List.any_eq_false, List.any_eq_true,
    not_exists, not_and]
  constructor
  · intro h c hc r hr hcond
    have := h c hc r hr
    rw [if_pos hcond] at this
    exact hco c r this
  · intro h c hc r hr
    by_cases hcond : cond c r = true
    · exact absurd hcond (h c hc r hr)
    · rw [if_neg hcond]

/-- Counts of two distinct values never exceed the length. -/
lemma count_pair_le (w : List Nat) (x y : Nat) (h : x ≠ y) :
    w.count x + w.count y ≤ w.length := by
  induction w with
  | nil => simp
  | cons a t ih =>
      simp only [List.count_cons, List.length_cons, beq_iff_eq]
      split_ifs with h1 h2
      · exact absurd (by omega : x = y) h
      · omega
      · omega
      · omega

/-- On a 4-cell window the additive source scoring agrees with the spec's
mutually exclusive case list. -/
lemma window_eq (w : List Nat) (p : Nat) (hw : w.length = 4)
    (hp : p = PLAYER_PIECE ∨ p = AI_PIECE) :
    evaluate_window w p = spec_window w p := by
  have h10 := count_pair_le w 1 0 (by decide)
  have h20 := count_pair_le w 2 0 (by decide)
  have h12 := count_pair_le w 1 2 (by decide)
  have h21 := count_pair_le w 2 1 (by decide)
  rw [hw] at h10 h20 h12 h21
  rcases hp with hp | hp <;> subst hp <;>
    simp only [evaluate_window, spec_window, PLAYER_PIECE, AI_PIECE, EMPTY,
      show ¬((1 : Nat) = 2) by decide, if_false, show ((2 : Nat) = 2) by rfl, if_true] <;>
    split_ifs <;> omega

/-- A list of length 7 is its seven entries. -/
lemma list_seven (l : List Nat) (h : l.length = 7) :
    l = [l.getD 0 EMPTY, l.getD 1 EMPTY, l.getD 2 EMPTY, l.getD 3 EMPTY,
      l.getD 4 EMPTY, l.getD 5 EMPTY, l.getD 6 EMPTY] := by
  rcases l with _ | ⟨a0, _ | ⟨a1, _ | ⟨a2, _ | ⟨a3, _ | ⟨a4, _ | ⟨a5, _ | ⟨a6, tl⟩⟩⟩⟩⟩⟩⟩ <;>
    simp_all

/-- A horizontal slice of a well-formed row is the four cells it covers. -/
lemma row_slice (b : Board) (hwf : WF b) (r c : Nat) (hr : r < ROWS) (hc : c < COLS - 3) :
    ((b.getD r []).drop c).take 4 =
      [cell b r c, cell b r (c + 1), cell b r (c + 2), cell b r (c + 3)] := by
  have hrl : r < b.length := by rw [hwf.1]; exact hr
  have hmem : b.getD r [] ∈ b := by
    rw [List.getD_eq_getElem b [] hrl]
    exact List.getElem_mem hrl
  have hlen : (b.getD r []).length = 7 := hwf.2 _ hmem
  show _ = [(b.getD r []).getD c EMPTY, (b.getD r []).getD (c + 1) EMPTY,
    (b.getD r []).getD (c + 2) EMPTY, (b.getD r []).getD (c + 3) EMPTY]
  rw [list_seven _ hlen]
  have hc4 : c < 4 := hc
  interval_cases c <;> rfl

/-- A vertical slice of the column comprehension is the four cells it covers. -/
lemma col_slice (b : Board) (c r : Nat) (hr : r < ROWS - 3) :
    ((((List.range ROWS).map fun i => cell b i c).drop r).take 4) =
      [cell b r c, cell b (r + 1) c, cell b (r + 2) c, cell b (r + 3) c] := by
  have hr3 : r < 3 := hr
  interval_cases r <;> rfl

/-- The source evaluator equals the spec's reference evaluator on well-formed
boards, for either piece. -/
lemma score_eq_spec (b : Board) (p : Nat) (hwf : WF b)
    (hp : p = PLAYER_PIECE ∨ p = AI_PIECE) :
    score_position b p = spec_evaluate b p := by
  simp only [score_position, spec_evaluate]
  have hH : ((List.range ROWS).map fun r =>
        (((List.range (COLS - 3)).map fun c =>
            evaluate_window (((b.getD r []).drop c).take 4) p).sum)) =
      ((List.range ROWS).map fun r =>
        (((List.range (COLS - 3)).map fun c =>
            spec_window [cell b r c, cell b r (c + 1), cell b r (c + 2), cell b r (c + 3)] p).sum)) := by
    apply List.map_congr_left
    intro r hr
    congr 1
    apply List.map_congr_left
    intro c hc
    rw [row_slice b hwf r c (List.mem_range.mp hr) (List.mem_range.mp hc)]
    exact window_eq _ p rfl hp
  have hV : ((List.range COLS).map fun c =>
        (((List.range (ROWS - 3)).map fun r =>
            evaluate_window (((((List.range ROWS).map fun i => cell b i c).drop r).take 4)) p).sum)) =
      ((List.range COLS).map fun c =>
        (((List.range (ROWS - 3)).map fun r =>
            spec_window [cell b r c, cell b (r + 1) c, cell b (r + 2) c, cell b (r + 3) c] p).sum)) := by
    apply List.map_congr_left
    intro c hc
    congr 1
    apply List.map_congr_left
    intro r hr
    rw [col_slice b c r (List.mem_range.mp hr)]
    exact window_eq _ p rfl hp
  have hD1 : ((List.range (ROWS - 3)).map fun r =>
        (((List.range (COLS - 3)).map fun c =>
            evaluate_window ((List.range 4).map fun i => cell b (r + i) (c + i)) p).sum)) =
      ((List.range (ROWS - 3)).map fun r =>
        (((List.range (COLS - 3)).map fun c =>
            spec_window [cell b r c, cell b (r + 1) (c + 1), cell b (r + 2) (c + 2),
              cell b (r + 3) (c + 3)] p).sum)) := by
    apply List.map_congr_left
    intro r hr
    congr 1
    apply List.map_congr_left
    intro c hc
    exact window_eq _ p rfl hp
  have hD2 : ((List.range (ROWS - 3)).map fun r =>
        (((List.range (COLS - 3)).map fun c =>
            evaluate_window ((List.range 4).map fun i => cell b (r + 3 - i) (c + i)) p).sum)) =
      ((List.range (ROWS - 3)).map fun r =>
        (((List.range (COLS - 3)).map fun c =>
            spec_window [cell b (r + 3) c, cell b (r + 2) (c + 1), cell b (r + 1) (c + 2),
              cell b r (c + 3)] p).sum)) := by
    apply List.map_congr_left
    intro r hr
    congr 1
    apply List.map_congr_left
    intro c hc
    exact window_eq _ p rfl hp
  rw [hH, hV, hD1, hD2]
  ring

/-- The deterministic oracle returns a member of every non-empty list. -/
lemma pick0_mem : ∀ l : List Nat, l ≠ [] → pick0 l ∈ l := by
  intro l h
  cases l with
  | nil => exact absurd rfl h
  | cons a t => exact List.mem_cons_self a t

/-- Python `<` is irreflexive on the modelled values. -/
lemma xint_lt_irrefl (a : XInt) : XInt.lt a a = false := by
  cases a with
  | negInf => rfl
  | posInf => rfl
  | val z => simp [XInt.lt]

/-- A maximizing step whose recursive score ties the current best value keeps
the recorded column and value unchanged. -/
lemma maxLoop_step_stay (recScore : Board → XInt → XInt → XInt) (b : Board)
    (col : Nat) (rest : List Nat) (value : XInt) (column : Option Nat) (alpha beta : XInt)
    (h : recScore (simulate_drop b col AI_PIECE) alpha beta = value) :
    maxLoop recScore b (col :: rest) value column alpha beta =
      if XInt.le beta (XInt.max alpha value) then (column, value)
      else maxLoop recScore b rest value column (XInt.max alpha value) beta := by
  rw [maxLoop]
  simp only [h, xint_lt_irrefl, Bool.false_eq_true, if_false]

/-- A maximizing step with a strictly greater recursive score updates the
recorded column to the scanned column. -/
lemma maxLoop_step_improve (recScore : Board → XInt → XInt → XInt) (b : Board)
    (col : Nat) (rest : List Nat) (value : XInt) (column : Option Nat) (alpha beta : XInt)
    (h : XInt.lt value (recScore (simulate_drop b col AI_PIECE) alpha beta) = true) :
    maxLoop recScore b (col :: rest) value column alpha beta =
      if XInt.le beta (XInt.max alpha (recScore (simulate_drop b col AI_PIECE) alpha beta))
      then (some col, recScore (simulate_drop b col AI_PIECE) alpha beta)
      else maxLoop recScore b rest (recScore (simulate_drop b col AI_PIECE) alpha beta)
        (some col) (XInt.max alpha (recScore (simulate_drop b col AI_PIECE) alpha beta)) beta := by
  rw [maxLoop]
  simp only [h, if_true]

/-- A minimizing step whose recursive score ties the current best value keeps
the recorded column and value unchanged. -/
lemma minLoop_step_stay (recScore : Board → XInt → XInt → XInt) (b : Board)
    (col : Nat) (rest : List Nat) (value : XInt) (column : Option Nat) (alpha beta : XInt)
    (h : recScore (simulate_drop b col PLAYER_PIECE) alpha beta = value) :
    minLoop recScore b (col :: rest) value column alpha beta =
      if XInt.le (XInt.min beta value) alpha then (column, value)
      else minLoop recScore b rest value column alpha (XInt.min beta value) := by
  rw [minLoop]
  simp only [h, xint_lt_irrefl, Bool.false_eq_true, if_false]

/-- A minimizing step with a strictly smaller recursive score updates the
recorded column to the scanned column. -/
lemma minLoop_step_improve (recScore : Board → XInt → XInt → XInt) (b : Board)
    (col : Nat) (rest : List Nat) (value : XInt) (column : Option Nat) (alpha beta : XInt)
    (h : XInt.lt (recScore (simulate_drop b col PLAYER_PIECE) alpha beta) value = true) :
    minLoop recScore b (col :: rest) value column alpha beta =
      if XInt.le (XInt.min beta (recScore (simulate_drop b col PLAYER_PIECE) alpha beta)) alpha
      then (some col, recScore (simulate_drop b col PLAYER_PIECE) alpha beta)
      else minLoop recScore b rest (recScore (simulate_drop b col PLAYER_PIECE) alpha beta)
        (some col) alpha (XInt.min beta (recScore (simulate_drop b col PLAYER_PIECE) alpha beta)) := by
  rw [minLoop]
  simp only [h, if_true]

/-- With an AI four-in-a-row, `minimax` returns the positive sentinel at any
depth and any bounds. -/
lemma minimax_of_ai_win (pick : List Nat → Nat) (d : Nat) (b : Board) (alpha beta : XInt)
    (m : Bool) (h : winning_move b AI_PIECE = true) :
    minimax pick d b alpha beta m = (none, XInt.val 100000000000000) := by
  have hterm : is_terminal_node b = true := by simp [is_terminal_node, h]
  cases d with
  | zero => rw [minimax]; simp [hterm, terminal_score, h]
  | succ n => rw [minimax]; simp [hterm, terminal_score, h]

/-- With a player four-in-a-row and no AI one, `minimax` returns the negative
sentinel at any depth and any bounds. -/
lemma minimax_of_player_win (pick : List Nat → Nat) (d : Nat) (b : Board) (alpha beta : XInt)
    (m : Bool) (hai : winning_move b AI_PIECE = false)
    (h : winning_move b PLAYER_PIECE = true) :
    minimax pick d b alpha beta m = (none, XInt.val (-10000000000000)) := by
  have hterm : is_terminal_node b = true := by simp [is_terminal_node, h]
  cases d with
  | zero => rw [minimax]; simp [hterm, terminal_score, h, hai]
  | succ n => rw [minimax]; simp [hterm, terminal_score, h, hai]

/-- Whenever a legal column exists, `get_ai_move` returns a legal column. -/
lemma get_ai_move_key (pick : List Nat → Nat)
    (hpick : ∀ l : List Nat, l ≠ [] → pick l ∈ l) (b : Board) (d : Nat)
    (hne : valid_locations b ≠ []) :
    ∃ c, get_ai_move pick b d = some c ∧ c ∈ valid_locations b := by
  rw [get_ai_move]
  split
  · next col h1 =>
      refine ⟨col, rfl, mem_valid_locations.mpr ?_⟩
      have := List.find?_some h1
      exact (Bool.and_eq_true _ _).mp this |>.1
  · split
    · next col h2 =>
        refine ⟨col, rfl, mem_valid_locations.mpr ?_⟩
        have := List.find?_some h2
        exact (Bool.and_eq_true _ _).mp this |>.1
    · split
      · next col h3 => exact ⟨col, rfl, minimax_col_mem pick hpick _ _ _ _ _ _ h3⟩
      · exact ⟨get_center_column pick b, rfl, gcc_mem pick hpick b hne⟩

/-- With no legal column at all, `get_ai_move` still returns column 0. -/
lemma get_ai_move_of_nil (pick : List Nat → Nat)
    (hpick : ∀ l : List Nat, l ≠ [] → pick l ∈ l) (b : Board) (d : Nat)
    (hnil : valid_locations b = []) :
    get_ai_move pick b d = some 0 := by
  rw [get_ai_move]
  split
  · next col h1 =>
      have hp1 := List.find?_some h1
      have hval := ((Bool.and_eq_true _ _).mp hp1).1
      exact absurd (mem_valid_locations.mpr hval) (by simp [hnil])
  · split
    · next col h2 =>
        have hp2 := List.find?_some h2
        have hval := ((Bool.and_eq_true _ _).mp hp2).1
        exact absurd (mem_valid_locations.mpr hval) (by simp [hnil])
    · split
      · next col h3 =>
          exact absurd (minimax_col_mem pick hpick _ _ _ _ _ _ h3) (by simp [hnil])
      · rw [gcc_of_nil pick b hnil]


/-- Claim C1 is false as stated: on the fully occupied board `full_board`,
`get_ai_move` returns column 0 although `valid_locations` is empty, so the
returned column is absent from the legal columns. -/
theorem c1_counterexample :
    get_ai_move pick0 full_board 5 = some 0 ∧ valid_locations full_board = [] := by
  decide

/-- Claim C1 (amended): whenever the board has at least one legal column,
`get_ai_move` returns a legal column for every depth and every choice oracle,
and on a board with exactly one legal column it returns that column. -/
theorem c1_amended (pick : List Nat → Nat) (b : Board) (d : Nat)
    (hpick : ∀ l : List Nat, l ≠ [] → pick l ∈ l) :
    (valid_locations b ≠ [] → ∃ c, get_ai_move pick b d = some c ∧ c ∈ valid_locations b) ∧
    (∀ c, valid_locations b = [c] → get_ai_move pick b d = some c) := by
  constructor
  · intro hne; exact get_ai_move_key pick hpick b d hne
  · intro c hvc
    obtain ⟨c', hc', hm⟩ := get_ai_move_key pick hpick b d (by simp [hvc])
    rw [hvc] at hm
    simp at hm
    rwa [hm] at hc'

/-- Witness for the amended claim C1: `one_col_board` has exactly one legal
column, 6, and `get_ai_move` returns it. -/
theorem c1_amended_witness :
    get_ai_move pick0 one_col_board 4 = some 6 :=
  (c1_amended pick0 one_col_board 4 pick0_mem).2 6 (by decide)

/-- Claim C2 is false as stated: the terminal sentinels are `10^14` for an AI
win but only `-10^13` for a player win, so their magnitudes differ. -/
theorem c2_counterexample :
    minimax pick0 1 ai_win_board XInt.negInf XInt.posInf true =
      (none, XInt.val 100000000000000) ∧
    minimax pick0 1 player_win_board XInt.negInf XInt.posInf true =
      (none, XInt.val (-10000000000000)) ∧
    (100000000000000 : Int) ≠ 10000000000000 := by
  refine ⟨by decide, by decide, by decide⟩

/-- Claim C2 (amended): in minimax's terminal base case an AI four-in-a-row
scores the large positive sentinel `100000000000000` and a player
four-in-a-row scores the large negative sentinel `-10000000000000`; the two
sentinels have opposite sign but unequal magnitude. -/
theorem c2_amended (pick : List Nat → Nat) (d : Nat) (b : Board) (alpha beta : XInt)
    (m : Bool) :
    (winning_move b AI_PIECE = true →
      minimax pick d b alpha beta m = (none, XInt.val 100000000000000)) ∧
    (winning_move b AI_PIECE = false → winning_move b PLAYER_PIECE = true →
      minimax pick d b alpha beta m = (none, XInt.val (-10000000000000))) :=
  ⟨minimax_of_ai_win pick d b alpha beta m,
   fun hai h => minimax_of_player_win pick d b alpha beta m hai h⟩

/-- Witness for the amended claim C2 at concrete winning boards. -/
theorem c2_amended_witness :
    minimax pick0 2 ai_win_board XInt.negInf XInt.posInf true =
      (none, XInt.val 100000000000000) ∧
    minimax pick0 2 player_win_board XInt.negInf XInt.posInf true =
      (none, XInt.val (-10000000000000)) :=
  ⟨(c2_amended pick0 2 ai_win_board XInt.negInf XInt.posInf true).1 (by decide),
   (c2_amended pick0 2 player_win_board XInt.negInf XInt.posInf true).2 (by decide) (by decide)⟩

/-- Claim C3 is false as stated: on a fully occupied board `get_ai_move` does
not return none. -/
theorem c3_counterexample :
    valid_locations full_board = [] ∧ ¬ get_ai_move pick0 full_board 3 = none := by
  decide

/-- Claim C3 (amended): the fallback returns the center column if legal; when
the center is illegal and some column is legal it returns a legal column at
minimal absolute offset from the center (the random draw only arises for the
sole remaining column 0); and on a board with no legal column `get_ai_move`
returns column 0, never none. -/
theorem c3_amended (pick : List Nat → Nat) (b : Board) (d : Nat)
    (hpick : ∀ l : List Nat, l ≠ [] → pick l ∈ l) :
    (is_valid_location_board b (COLS / 2) = true → get_center_column pick b = COLS / 2) ∧
    (is_valid_location_board b (COLS / 2) = false → valid_locations b ≠ [] →
      get_center_column pick b ∈ valid_locations b ∧
      ∀ c ∈ valid_locations b,
        ((get_center_column pick b : Int) - 3).natAbs ≤ ((c : Int) - 3).natAbs) ∧
    (valid_locations b = [] → get_ai_move pick b d = some 0) := by
  refine ⟨?_, ?_, ?_⟩
  · intro h
    have h3 : get_center_column pick b = 3 := by
      rw [get_center_column]
      simp only [h, if_true]
      decide
    rw [h3]
    decide
  · intro hcf hne
    exact gcc_nearest pick hpick b hcf hne
  · intro hnil
    exact get_ai_move_of_nil pick hpick b d hnil

/-- Witness for the amended claim C3 on three concrete boards. -/
theorem c3_amended_witness :
    get_center_column pick0 center_board = COLS / 2 ∧
    (get_center_column pick0 one_col_board ∈ valid_locations one_col_board ∧
      ∀ c ∈ valid_locations one_col_board,
        ((get_center_column pick0 one_col_board : Int) - 3).natAbs ≤ ((c : Int) - 3).natAbs) ∧
    get_ai_move pick0 full_board 7 = some 0 :=
  ⟨(c3_amended pick0 center_board 0 pick0_mem).1 (by decide),
   (c3_amended pick0 one_col_board 0 pick0_mem).2.1 (by decide) (by decide),
   (c3_amended pick0 full_board 7 pick0_mem).2.2 (by decide)⟩

/-- Claim C4: `score_position` (with `evaluate_window`) equals the spec's
reference evaluator on every well-formed board for either piece — `+3` per own
piece in the center column plus the exclusive window case list — and on an
empty board with one piece in the center column it returns exactly 3. -/
theorem c4_evaluator_matches_spec :
    (∀ (b : Board) (p : Nat), WF b → (p = PLAYER_PIECE ∨ p = AI_PIECE) →
      score_position b p = spec_evaluate b p) ∧
    score_position center_board PLAYER_PIECE = 3 :=
  ⟨fun b p hwf hp => score_eq_spec b p hwf hp, by decide⟩

/-- Witness for claim C4 at the center-piece board. -/
theorem c4_evaluator_witness :
    WF center_board ∧
    score_position center_board PLAYER_PIECE = spec_evaluate center_board PLAYER_PIECE :=
  ⟨⟨rfl, by decide⟩,
   c4_evaluator_matches_spec.1 center_board PLAYER_PIECE ⟨rfl, by decide⟩ (Or.inl rfl)⟩

/-- Claim C5: on any non-terminal board, `minimax` at depth 0 returns no
column and exactly the `score_position` value for the AI piece, for any
alpha/beta bounds and either node kind. -/
theorem c5_minimax_depth_zero (pick : List Nat → Nat) (b : Board) (alpha beta : XInt)
    (m : Bool) (h : is_terminal_node b = false) :
    minimax pick 0 b alpha beta m = (none, XInt.val (score_position b AI_PIECE)) := by
  rw [minimax]
  simp only [h, Bool.false_eq_true, if_false]

/-- Witness for claim C5 at the center-piece board. -/
theorem c5_minimax_depth_zero_witness :
    is_terminal_node center_board = false ∧
    minimax pick0 0 center_board XInt.negInf XInt.posInf true =
      (none, XInt.val (score_position center_board AI_PIECE)) :=
  ⟨by decide, c5_minimax_depth_zero pick0 center_board XInt.negInf XInt.posInf true (by decide)⟩

/-- Claim C6: with opponent pieces at bottom-row columns 0, 1, 2 only,
`get_ai_move` returns column 3 at every depth (the greedy block fires before
any search). -/
theorem c6_greedy_block_scenario : ∀ (d : Nat) (pick : List Nat → Nat),
    get_ai_move pick block3_board d = some 3 := by
  intro d pick
  rfl

/-- Claim C7: with one piece at bottom-row columns 0-2, `winning_move` is
false and `get_winning_positions` is empty; after placing the same piece at
column 3, `winning_move` is true and the coordinates
`[(5,0), (5,1), (5,2), (5,3)]` are returned. -/
theorem c7_win_line_detection :
    winning_move block3_board PLAYER_PIECE = false ∧
    get_winning_positions block3_board PLAYER_PIECE = [] ∧
    winning_move block4_board PLAYER_PIECE = true ∧
    get_winning_positions block4_board PLAYER_PIECE = [(5, 0), (5, 1), (5, 2), (5, 3)] := by
  decide

/-- Claim C8: in minimax's recursive loops, a recursive score equal to the
current best value never replaces the recorded best column or value — only a
strictly greater score (strictly smaller at a minimizing node) updates them to
the scanned column. -/
theorem c8_tie_break_policy (recScore : Board → XInt → XInt → XInt) (b : Board)
    (col : Nat) (rest : List Nat) (value : XInt) (column : Option Nat) (alpha beta : XInt) :
    (recScore (simulate_drop b col AI_PIECE) alpha beta = value →
      maxLoop recScore b (col :: rest) value column alpha beta =
        if XInt.le beta (XInt.max alpha value) then (column, value)
        else maxLoop recScore b rest value column (XInt.max alpha value) beta) ∧
    (XInt.lt value (recScore (simulate_drop b col AI_PIECE) alpha beta) = true →
      maxLoop recScore b (col :: rest) value column alpha beta =
        if XInt.le beta (XInt.max alpha (recScore (simulate_drop b col AI_PIECE) alpha beta))
        then (some col, recScore (simulate_drop b col AI_PIECE) alpha beta)
        else maxLoop recScore b rest (recScore (simulate_drop b col AI_PIECE) alpha beta)
          (some col) (XInt.max alpha (recScore (simulate_drop b col AI_PIECE) alpha beta)) beta) ∧
    (recScore (simulate_drop b col PLAYER_PIECE) alpha beta = value →
      minLoop recScore b (col :: rest) value column alpha beta =
        if XInt.le (XInt.min beta value) alpha then (column, value)
        else minLoop recScore b rest value column alpha (XInt.min beta value)) ∧
    (XInt.lt (recScore (simulate_drop b col PLAYER_PIECE) alpha beta) value = true →
      minLoop recScore b (col :: rest) value column alpha beta =
        if XInt.le (XInt.min beta (recScore (simulate_drop b col PLAYER_PIECE) alpha beta)) alpha
        then (some col, recScore (simulate_drop b col PLAYER_PIECE) alpha beta)
        else minLoop recScore b rest (recScore (simulate_drop b col PLAYER_PIECE) alpha beta)
          (some col) alpha (XInt.min beta (recScore (simulate_drop b col PLAYER_PIECE) alpha beta))) :=
  ⟨maxLoop_step_stay recScore b col rest value column alpha beta,
   maxLoop_step_improve recScore b col rest value column alpha beta,
   minLoop_step_stay recScore b col rest value column alpha beta,
   minLoop_step_improve recScore b col rest value column alpha beta⟩

/-- Witness for claim C8: concrete loop steps with tied and improving
scores. -/
theorem c8_tie_break_witness :
    maxLoop recScore0 block3_board [0] (XInt.val 0) (some 5) XInt.negInf XInt.posInf
      = (some 5, XInt.val 0) ∧
    maxLoop recScore0 block3_board [0] XInt.negInf (some 5) XInt.negInf XInt.posInf
      = (some 0, XInt.val 0) ∧
    minLoop recScore0 block3_board [0] (XInt.val 0) (some 5) XInt.negInf XInt.posInf
      = (some 5, XInt.val 0) ∧
    minLoop recScore0 block3_board [0] XInt.posInf (some 5) XInt.negInf XInt.posInf
      = (some 0, XInt.val 0) := by
  refine ⟨?_, ?_, ?_, ?_⟩
  · rw [(c8_tie_break_policy recScore0 block3_board 0 []
      (XInt.val 0) (some 5) XInt.negInf XInt.posInf).1 rfl]
    decide
  · rw [(c8_tie_break_policy recScore0 block3_board 0 []
      XInt.negInf (some 5) XInt.negInf XInt.posInf).2.1 (by decide)]
    decide
  · rw [(c8_tie_break_policy recScore0 block3_board 0 []
      (XInt.val 0) (some 5) XInt.negInf XInt.posInf).2.2.1 rfl]
    decide
  · rw [(c8_tie_break_policy recScore0 block3_board 0 []
      XInt.posInf (some 5) XInt.negInf XInt.posInf).2.2.2 (by decide)]
    decide

/-- Claim C9: for every board and piece, `winning_move` is true exactly when
`get_winning_positions` returns a non-empty sequence. -/
theorem c9_win_iff_positions : ∀ (b : Board) (p : Nat),
    winning_move b p = true ↔ get_winning_positions b p ≠ [] := by
  intro b p
  rw [winning_move, get_winning_positions]
  rw [ne_eq, List.append_eq_nil, List.append_eq_nil, List.append_eq_nil]
  rw [block_nil_iff _ _ _ _ (fun c r => by simp),
    block_nil_iff _ _ _ _ (fun c r => by simp),
    block_nil_iff _ _ _ _ (fun c r => by simp),
    block_nil_iff _ _ _ _ (fun c r => by simp)]
  cases hA : ((List.range (COLS - 3)).any fun c => (List.range ROWS).any fun r =>
      (List.range 4).all fun i => cell b r (c + i) == p) <;>
  cases hB : ((List.range COLS).any fun c => (List.range (ROWS - 3)).any fun r =>
      (List.range 4).all fun i => cell b (r + i) c == p) <;>
  cases hC : ((List.range (COLS - 3)).any fun c => (List.range (ROWS - 3)).any fun r =>
      (List.range 4).all fun i => cell b (r + i) (c + i) == p) <;>
  cases hD : ((List.range (COLS - 3)).any fun c => (List.range (ROWS - 3)).any fun r0 =>
      (List.range 4).all fun i => cell b (r0 + 3 - i) (c + i) == p) <;>
  simp

/-- Claim C10: for every column drawn from `valid_locations`,
`get_next_open_row_board` returns some row below `ROWS` (never none), so the
placement `b_copy[row][col]` performed by `minimax` indexes the board in
bounds. -/
theorem c10_open_row_in_bounds (b : Board) (col : Nat) (h : col ∈ valid_locations b) :
    ∃ row, get_next_open_row_board b col = some row ∧ row < ROWS ∧
      ∀ piece, simulate_drop b col piece = place b row col piece := by
  have hv := mem_valid_locations.mp h
  have hcell : (cell b 0 col == EMPTY) = true := by
    simp only [is_valid_location_board, Bool.and_eq_true] at hv
    exact hv.2
  have hsome : (get_next_open_row_board b col).isSome := by
    rw [get_next_open_row_board, List.find?_isSome]
    exact ⟨0, by decide, hcell⟩
  obtain ⟨row, hrow⟩ := Option.isSome_iff_exists.mp hsome
  have hrow' : ((List.range ROWS).reverse).find? (fun r => cell b r col == EMPTY)
      = some row := hrow
  refine ⟨row, hrow, ?_, ?_⟩
  · have := List.mem_of_find?_eq_some hrow'
    rw [List.mem_reverse, List.mem_range] at this
    exact this
  · intro piece
    rw [simulate_drop, hrow]

/-- Witness for claim C10 at a concrete board and column. -/
theorem c10_open_row_witness :
    3 ∈ valid_locations block3_board ∧
    ∃ row, get_next_open_row_board block3_board 3 = some row ∧ row < ROWS ∧
      ∀ piece, simulate_drop block3_board 3 piece = place block3_board row 3 piece :=
  ⟨by decide, c10_open_row_in_bounds block3_board 3 (by decide)⟩



end C4
